import Mathlib

set_option maxHeartbeats 1000000
set_option maxRecDepth 100000

/- Shallow embedding of xnacly/go-iso8601-duration (src/duration.go, src/error.go):
   the character-level FSM parser `From`, the overflow-checked decimal accumulator
   `numBufferToNumber`, and the canonical serializer `Duration.String`.
   Go strings are modelled as `List Char` (sequences of runes); a rune whose UTF-8
   encoding is longer than one byte is exactly a rune with code point ≥ 128.
   The `int64` values never overflow in reachable code (the accumulator checks
   before each multiply-add), so they are modelled as `Int`; the `uint8` column
   counter wraps, so it is modelled as `Nat` with an explicit `% 256` on each
   increment. -/

inductive ErrKind where
  | UnexpectedEof
  | UnexpectedReaderError
  | UnexpectedNonAsciiRune
  | MissingDesignator
  | UnknownDesignator
  | DuplicateDesignator
  | MissingNumber
  | DesignatorNumberTooLarge
  | MissingPDesignatorAtStart
  deriving DecidableEq

/- A Go `error` value returned by the parser: either an `ISO8601DurationError`
   produced by `wrapErr` (carrying a kind and a uint8 column), or one of the bare
   sentinel error values returned without wrapping. -/
inductive GoError where
  | positioned (inner : ErrKind) (column : Nat)
  | bare (inner : ErrKind)
  deriving DecidableEq

def wrapErr (inner : ErrKind) (col : Nat) : GoError := .positioned inner col

inductive St where
  | start
  | p
  | number
  | designator
  | t
  | tnumber
  | tdesignator
  deriving DecidableEq

structure Duration where
  hasNegativeSign : Bool := false
  year : Int := 0
  month : Int := 0
  week : Int := 0
  day : Int := 0
  hour : Int := 0
  minute : Int := 0
  second : Int := 0
  deriving DecidableEq

def maxInt64 : Int := 9223372036854775807

/- `unicode.IsDigit` restricted to single-byte runes: exactly ASCII '0'..'9'. -/
def isDigitChar (c : Char) : Bool := 48 ≤ c.toNat && c.toNat ≤ 57

def defaultDesignators : List Char := ['Y', 'M', 'W', 'D']

def timeDesignators : List Char := ['M', 'H', 'S']

/- The loop of `numBufferToNumber`, with accumulator `i`. -/
def numAccumGo : Int → List Char → Except GoError Int
  | i, [] => .ok i
  | i, c :: rest =>
    let digit : Int := (c.toNat : Int) - 48
    if i > (maxInt64 - digit) / 10 then .error (.bare .DesignatorNumberTooLarge)
    else numAccumGo (i * 10 + digit) rest

def numBufferToNumber (buf : List Char) : Except GoError Int := numAccumGo 0 buf

/- The body of `From`'s for-loop: state, duration built so far, the digit buffer,
   the uint8 column counter, and the remaining input. End of input is `[]`. -/
def fromLoop : St → Duration → List Char → Nat → List Char → Duration × Option GoError
  | st, dur, _, col, [] =>
    match st with
    | .p => (dur, some (wrapErr .UnexpectedEof col))
    | .number => (dur, some (wrapErr .MissingDesignator col))
    | .tnumber => (dur, some (wrapErr .MissingDesignator col))
    | _ => (dur, none)
  | st, dur, numBuf, col, c :: rest =>
    if 128 ≤ c.toNat then (dur, some (wrapErr .UnexpectedNonAsciiRune col))
    else
      let col2 := (col + 1) % 256
      match st with
      | .start =>
        if c = '-' then fromLoop .start { dur with hasNegativeSign := true } numBuf col2 rest
        else if c = '+' then fromLoop .start dur numBuf col2 rest
        else if c = 'P' then fromLoop .p dur numBuf col2 rest
        else (dur, some (wrapErr .MissingPDesignatorAtStart col2))
      | .p | .designator =>
        if c = 'T' then fromLoop .t dur numBuf col2 rest
        else if isDigitChar c then fromLoop .number dur (numBuf ++ [c]) col2 rest
        else (dur, some (wrapErr .MissingNumber col2))
      | .number =>
        if isDigitChar c then fromLoop .number dur (numBuf ++ [c]) col2 rest
        else if c ∈ defaultDesignators then
          if numBuf = [] then (dur, some (wrapErr .MissingNumber col2))
          else
            match numBufferToNumber numBuf with
            | .error e => (dur, some e)
            | .ok num =>
              if c = 'Y' then
                if dur.year ≠ 0 then (dur, some (wrapErr .DuplicateDesignator col2))
                else fromLoop .designator { dur with year := num } [] col2 rest
              else if c = 'M' then
                if dur.month ≠ 0 then (dur, some (wrapErr .DuplicateDesignator col2))
                else fromLoop .designator { dur with month := num } [] col2 rest
              else if c = 'W' then
                if dur.week ≠ 0 then (dur, some (wrapErr .DuplicateDesignator col2))
                else fromLoop .designator { dur with week := num } [] col2 rest
              else if c = 'D' then
                if dur.day ≠ 0 then (dur, some (wrapErr .DuplicateDesignator col2))
                else fromLoop .designator { dur with day := num } [] col2 rest
              else fromLoop .designator dur [] col2 rest
        else (dur, some (wrapErr .UnknownDesignator col2))
      | .t | .tdesignator =>
        if isDigitChar c then fromLoop .tnumber dur (numBuf ++ [c]) col2 rest
        else (dur, some (wrapErr .MissingNumber col2))
      | .tnumber =>
        if isDigitChar c then fromLoop .tnumber dur (numBuf ++ [c]) col2 rest
        else if c ∈ timeDesignators then
          if numBuf = [] then (dur, some (wrapErr .MissingNumber col2))
          else
            match numBufferToNumber numBuf with
            | .error e => (dur, some e)
            | .ok num =>
              if c = 'H' then
                if dur.hour ≠ 0 then (dur, some (wrapErr .DuplicateDesignator col2))
                else fromLoop .tdesignator { dur with hour := num } [] col2 rest
              else if c = 'M' then
                if dur.minute ≠ 0 then (dur, some (wrapErr .DuplicateDesignator col2))
                else fromLoop .tdesignator { dur with minute := num } [] col2 rest
              else if c = 'S' then
                if dur.second ≠ 0 then (dur, some (wrapErr .DuplicateDesignator col2))
                else fromLoop .tdesignator { dur with second := num } [] col2 rest
              else fromLoop .tdesignator dur [] col2 rest
        else (dur, some (wrapErr .UnknownDesignator col2))

/- `From(s string) (Duration, error)`. -/
def From (s : List Char) : Duration × Option GoError :=
  if s = [] then ({}, some (wrapErr .UnexpectedEof 0))
  else fromLoop .start {} [] 0 s

/- Decimal serialization of a natural number, as produced by `strconv.FormatInt`
   for non-negative values. Structured with fuel so that it evaluates by `rfl`. -/
def digitChar (d : Nat) : Char := Char.ofNat (48 + d)

def natDecAux : Nat → Nat → List Char
  | _, 0 => []
  | 0, _ + 1 => []
  | fuel + 1, n + 1 => natDecAux fuel ((n + 1) / 10) ++ [digitChar ((n + 1) % 10)]

def natDec (n : Nat) : List Char := if n = 0 then ['0'] else natDecAux n n

def formatInt (n : Int) : List Char :=
  if n < 0 then '-' :: natDec (-n).toNat else natDec n.toNat

/- `Duration.String`. -/
def Duration.String (i : Duration) : List Char :=
  (if i.hasNegativeSign then ['-'] else []) ++ 'P' ::
    (if i.year = 0 ∧ i.month = 0 ∧ i.week = 0 ∧ i.day = 0 ∧ i.hour = 0 ∧ i.minute = 0 ∧ i.second = 0
     then ['0', 'D']
     else
       (if 0 < i.year then formatInt i.year ++ ['Y'] else []) ++
       (if 0 < i.month then formatInt i.month ++ ['M'] else []) ++
       (if 0 < i.week then formatInt i.week ++ ['W'] else []) ++
       (if 0 < i.day then formatInt i.day ++ ['D'] else []) ++
       (if 0 < i.hour ∨ 0 < i.minute ∨ 0 < i.second
        then 'T' :: ((if 0 < i.hour then formatInt i.hour ++ ['H'] else []) ++
                     (if 0 < i.minute then formatInt i.minute ++ ['M'] else []) ++
                     (if 0 < i.second then formatInt i.second ++ ['S'] else []))
        else []))

/- Ghost variant of the parser whose column counter is an unbounded natural
   number instead of a uint8: it reports the true 1-based position. Used to
   state the wrap-around behaviour of the uint8 column. -/
def fromLoopNatCol : St → Duration → List Char → Nat → List Char → Duration × Option GoError
  | st, dur, _, col, [] =>
    match st with
    | .p => (dur, some (wrapErr .UnexpectedEof col))
    | .number => (dur, some (wrapErr .MissingDesignator col))
    | .tnumber => (dur, some (wrapErr .MissingDesignator col))
    | _ => (dur, none)
  | st, dur, numBuf, col, c :: rest =>
    if 128 ≤ c.toNat then (dur, some (wrapErr .UnexpectedNonAsciiRune col))
    else
      let col2 := col + 1
      match st with
      | .start =>
        if c = '-' then fromLoopNatCol .start { dur with hasNegativeSign := true } numBuf col2 rest
        else if c = '+' then fromLoopNatCol .start dur numBuf col2 rest
        else if c = 'P' then fromLoopNatCol .p dur numBuf col2 rest
        else (dur, some (wrapErr .MissingPDesignatorAtStart col2))
      | .p | .designator =>
        if c = 'T' then fromLoopNatCol .t dur numBuf col2 rest
        else if isDigitChar c then fromLoopNatCol .number dur (numBuf ++ [c]) col2 rest
        else (dur, some (wrapErr .MissingNumber col2))
      | .number =>
        if isDigitChar c then fromLoopNatCol .number dur (numBuf ++ [c]) col2 rest
        else if c ∈ defaultDesignators then
          if numBuf = [] then (dur, some (wrapErr .MissingNumber col2))
          else
            match numBufferToNumber numBuf with
            | .error e => (dur, some e)
            | .ok num =>
              if c = 'Y' then
                if dur.year ≠ 0 then (dur, some (wrapErr .DuplicateDesignator col2))
                else fromLoopNatCol .designator { dur with year := num } [] col2 rest
              else if c = 'M' then
                if dur.month ≠ 0 then (dur, some (wrapErr .DuplicateDesignator col2))
                else fromLoopNatCol .designator { dur with month := num } [] col2 rest
              else if c = 'W' then
                if dur.week ≠ 0 then (dur, some (wrapErr .DuplicateDesignator col2))
                else fromLoopNatCol .designator { dur with week := num } [] col2 rest
              else if c = 'D' then
                if dur.day ≠ 0 then (dur, some (wrapErr .DuplicateDesignator col2))
                else fromLoopNatCol .designator { dur with day := num } [] col2 rest
              else fromLoopNatCol .designator dur [] col2 rest
        else (dur, some (wrapErr .UnknownDesignator col2))
      | .t | .tdesignator =>
        if isDigitChar c then fromLoopNatCol .tnumber dur (numBuf ++ [c]) col2 rest
        else (dur, some (wrapErr .MissingNumber col2))
      | .tnumber =>
        if isDigitChar c then fromLoopNatCol .tnumber dur (numBuf ++ [c]) col2 rest
        else if c ∈ timeDesignators then
          if numBuf = [] then (dur, some (wrapErr .MissingNumber col2))
          else
            match numBufferToNumber numBuf with
            | .error e => (dur, some e)
            | .ok num =>
              if c = 'H' then
                if dur.hour ≠ 0 then (dur, some (wrapErr .DuplicateDesignator col2))
                else fromLoopNatCol .tdesignator { dur with hour := num } [] col2 rest
              else if c = 'M' then
                if dur.minute ≠ 0 then (dur, some (wrapErr .DuplicateDesignator col2))
                else fromLoopNatCol .tdesignator { dur with minute := num } [] col2 rest
              else if c = 'S' then
                if dur.second ≠ 0 then (dur, some (wrapErr .DuplicateDesignator col2))
                else fromLoopNatCol .tdesignator { dur with second := num } [] col2 rest
              else fromLoopNatCol .tdesignator dur [] col2 rest
        else (dur, some (wrapErr .UnknownDesignator col2))

def FromNatCol (s : List Char) : Duration × Option GoError :=
  if s = [] then ({}, some (wrapErr .UnexpectedEof 0))
  else fromLoopNatCol .start {} [] 0 s

/- Truncate the column of a positioned error to a uint8. -/
def errTrunc : GoError → GoError
  | .positioned k c => .positioned k (c % 256)
  | .bare k => .bare k

/- Proof-side helpers: numeric value of a digit buffer, and generic access to
   the component a designator letter selects. -/
def charVal (c : Char) : Nat := c.toNat - 48

def valNat (ds : List Char) : Nat := ds.foldl (fun a c => a * 10 + charVal c) 0

def intFold (i : Int) (ds : List Char) : Int :=
  ds.foldl (fun a c => a * 10 + ((c.toNat : Int) - 48)) i

def dateGet (c : Char) (d : Duration) : Int :=
  if c = 'Y' then d.year else if c = 'M' then d.month
  else if c = 'W' then d.week else if c = 'D' then d.day else 0

def dateSet (c : Char) (v : Int) (d : Duration) : Duration :=
  if c = 'Y' then { d with year := v } else if c = 'M' then { d with month := v }
  else if c = 'W' then { d with week := v } else if c = 'D' then { d with day := v } else d

def timeGet (c : Char) (d : Duration) : Int :=
  if c = 'H' then d.hour else if c = 'M' then d.minute else if c = 'S' then d.second else 0

def timeSet (c : Char) (v : Int) (d : Duration) : Duration :=
  if c = 'H' then { d with hour := v } else if c = 'M' then { d with minute := v }
  else if c = 'S' then { d with second := v } else d

/- Modelled from the spec: the grammar surface
   `[+-]? 'P' (nY)? (nM)? (nW)? (nD)? ('T' (nH)? (nM)? (nS)?)?`, where `n` is a
   nonempty run of ASCII decimal digits of unbounded length and designator
   letters are case-sensitive uppercase. This is a reference matcher written
   from the spec's words, to be compared with the parser translated from the
   source. -/
def takeDigits : List Char → List Char × List Char
  | [] => ([], [])
  | c :: cs =>
    if isDigitChar c then
      let q := takeDigits cs
      (c :: q.1, q.2)
    else ([], c :: cs)

def afterDes (c : Char) (l : List Char) : List Char :=
  (l.dropWhile (fun x => x != c)).tail

def matchGroupsAux : Nat → List Char → List Char → Option (List Char)
  | _, _, [] => some []
  | 0, _, _ :: _ => none
  | fuel + 1, desList, s =>
    let q := takeDigits s
    if q.1 = [] then some s
    else
      match q.2 with
      | [] => none
      | c :: rest2 => if c ∈ desList then matchGroupsAux fuel (afterDes c desList) rest2 else none

def grammarMatches (s : List Char) : Bool :=
  let s1 := match s with
    | c :: cs => if c = '+' || c = '-' then cs else s
    | [] => []
  match s1 with
  | 'P' :: body =>
    (match matchGroupsAux body.length ['Y', 'M', 'W', 'D'] body with
     | none => false
     | some rest =>
       match rest with
       | [] => true
       | 'T' :: trest => matchGroupsAux trest.length ['H', 'M', 'S'] trest = some []
       | _ => false)
  | _ => false

example : From "PT15M".data = ({ minute := 15 }, none) := by decide
example : From "P3Y6M4DT12H30M5S".data =
    ({ year := 3, month := 6, day := 4, hour := 12, minute := 30, second := 5 }, none) := by decide
example : From "".data = ({}, some (.positioned .UnexpectedEof 0)) := by decide
example : From "Z".data = ({}, some (.positioned .MissingPDesignatorAtStart 1)) := by decide
example : From "P1YD".data = ({ year := 1 }, some (.positioned .MissingNumber 4)) := by decide
example : Duration.String { hour := 1, minute := 30, second := 12 } = "PT1H30M12S".data := by decide
example : Duration.String {} = "P0D".data := by decide
example : From "P1A".data = ({}, some (.positioned .UnknownDesignator 3)) := by decide
example : From "P0Y1Y".data = ({ year := 1 }, none) := by decide
example : From "-".data = ({ hasNegativeSign := true }, none) := by decide
example : From "--P1D".data = ({ hasNegativeSign := true, day := 1 }, none) := by decide
example : From "P".data = ({}, some (.positioned .UnexpectedEof 1)) := by decide
example : grammarMatches "P".data = true := by decide
example : grammarMatches "P1Y2M".data = true := by decide
example : grammarMatches "P1D2Y".data = false := by decide
example : grammarMatches "--P1D".data = false := by decide
example : grammarMatches "P1W2D".data = true := by decide
example : From "P1W2DT3H".data = ({ week := 1, day := 2, hour := 3 }, none) := by decide

/- ### Digit and accumulator lemmas -/

theorem isDigitChar_bounds {c : Char} (h : isDigitChar c = true) :
    48 ≤ c.toNat ∧ c.toNat ≤ 57 := by
  simpa [isDigitChar] using h

theorem intFold_nil (i : Int) : intFold i [] = i := rfl

theorem intFold_cons (i : Int) (c : Char) (cs : List Char) :
    intFold i (c :: cs) = intFold (i * 10 + ((c.toNat : Int) - 48)) cs := rfl

theorem intFold_mono : ∀ (ds : List Char) (i : Int), (∀ c ∈ ds, isDigitChar c = true) →
    0 ≤ i → i ≤ intFold i ds
  | [], i, _, _ => le_refl i
  | c :: cs, i, hds, hi => by
    have hc := isDigitChar_bounds (hds c (by simp))
    have h1 : i ≤ i * 10 + ((c.toNat : Int) - 48) := by omega
    have h2 : (0 : Int) ≤ i * 10 + ((c.toNat : Int) - 48) := by omega
    calc i ≤ i * 10 + ((c.toNat : Int) - 48) := h1
    _ ≤ intFold (i * 10 + ((c.toNat : Int) - 48)) cs :=
        intFold_mono cs _ (fun x hx => hds x (by simp [hx])) h2
    _ = intFold i (c :: cs) := (intFold_cons i c cs).symm

theorem numAccumGo_spec : ∀ (ds : List Char) (i : Int), (∀ c ∈ ds, isDigitChar c = true) →
    0 ≤ i → i ≤ maxInt64 →
    numAccumGo i ds = if intFold i ds ≤ maxInt64 then .ok (intFold i ds)
      else .error (.bare .DesignatorNumberTooLarge)
  | [], i, _, _, hle => by simp [numAccumGo, intFold_nil, hle]
  | c :: cs, i, hds, hi0, hiM => by
    have hc := isDigitChar_bounds (hds c (by simp))
    have hcheck : (i > (maxInt64 - ((c.toNat : Int) - 48)) / 10) ↔
        i * 10 + ((c.toNat : Int) - 48) > maxInt64 := by
      have h1 := Int.ediv_add_emod (maxInt64 - ((c.toNat : Int) - 48)) 10
      have h2 := Int.emod_nonneg (maxInt64 - ((c.toNat : Int) - 48)) (by norm_num : (10:Int) ≠ 0)
      have h3 := Int.emod_lt_of_pos (maxInt64 - ((c.toNat : Int) - 48))
        (by norm_num : (0:Int) < 10)
      omega
    by_cases hbig : i > (maxInt64 - ((c.toNat : Int) - 48)) / 10
    · have hover : maxInt64 < i * 10 + ((c.toNat : Int) - 48) := hcheck.mp hbig
      have hmono : i * 10 + ((c.toNat : Int) - 48) ≤ intFold i (c :: cs) := by
        rw [intFold_cons]
        exact intFold_mono cs _ (fun x hx => hds x (by simp [hx])) (by omega)
      rw [show numAccumGo i (c :: cs) = .error (.bare .DesignatorNumberTooLarge) by
        simp only [numAccumGo]; rw [if_pos hbig]]
      rw [if_neg (by omega)]
    · have hstep : i * 10 + ((c.toNat : Int) - 48) ≤ maxInt64 := by
        have := hcheck.not.mp hbig; omega
      have h0 : (0 : Int) ≤ i * 10 + ((c.toNat : Int) - 48) := by omega
      rw [show numAccumGo i (c :: cs) = numAccumGo (i * 10 + ((c.toNat : Int) - 48)) cs by
        simp only [numAccumGo]; rw [if_neg hbig]]
      rw [intFold_cons]
      exact numAccumGo_spec cs _ (fun x hx => hds x (by simp [hx])) h0 hstep

theorem intFold_eq_natCast : ∀ (ds : List Char) (a : Nat), (∀ c ∈ ds, isDigitChar c = true) →
    intFold (a : Int) ds = ((ds.foldl (fun x c => x * 10 + charVal c) a : Nat) : Int)
  | [], a, _ => rfl
  | c :: cs, a, hds => by
    have hc := isDigitChar_bounds (hds c (by simp))
    have : (a : Int) * 10 + ((c.toNat : Int) - 48) = ((a * 10 + charVal c : Nat) : Int) := by
      simp only [charVal]; push_cast [Nat.cast_sub (by omega : 48 ≤ c.toNat)]; ring
    rw [intFold_cons, this, intFold_eq_natCast cs _ (fun x hx => hds x (by simp [hx]))]
    rfl

theorem numBufferToNumber_spec (ds : List Char) (hds : ∀ c ∈ ds, isDigitChar c = true) :
    numBufferToNumber ds = if (valNat ds : Int) ≤ maxInt64 then .ok ((valNat ds : Int))
      else .error (.bare .DesignatorNumberTooLarge) := by
  have h := numAccumGo_spec ds 0 hds (le_refl 0) (by norm_num [maxInt64])
  have hv : intFold 0 ds = ((valNat ds : Nat) : Int) := by
    have := intFold_eq_natCast ds 0 hds
    simpa [valNat] using this
  rw [numBufferToNumber, h, hv]

/- ### Decimal serialization lemmas -/

theorem digitChar_toNat : ∀ d : Nat, d < 10 → (digitChar d).toNat = 48 + d := by decide

theorem isDigitChar_digitChar : ∀ d : Nat, d < 10 → isDigitChar (digitChar d) = true := by decide

theorem natDecAux_eq : ∀ (fuel n : Nat), n ≤ fuel →
    natDecAux fuel n = ((Nat.digits 10 n).map digitChar).reverse
  | fuel, 0, _ => by cases fuel <;> simp [natDecAux]
  | 0, n + 1, h => by omega
  | fuel + 1, n + 1, h => by
    have hdiv : (n + 1) / 10 ≤ fuel := by
      have := Nat.div_lt_self (Nat.succ_pos n) (by norm_num : 1 < 10)
      omega
    rw [show natDecAux (fuel + 1) (n + 1)
        = natDecAux fuel ((n + 1) / 10) ++ [digitChar ((n + 1) % 10)] from rfl]
    rw [natDecAux_eq fuel ((n + 1) / 10) hdiv]
    rw [Nat.digits_def' (by norm_num : 1 < 10) (Nat.succ_pos n)]
    simp

theorem natDec_eq {n : Nat} (h : n ≠ 0) :
    natDec n = ((Nat.digits 10 n).map digitChar).reverse := by
  rw [natDec, if_neg h, natDecAux_eq n n (le_refl n)]

theorem natDec_ne_nil (n : Nat) : natDec n ≠ [] := by
  by_cases h : n = 0
  · subst h; simp [natDec]
  · rw [natDec_eq h]
    simp [Nat.digits_ne_nil_iff_ne_zero, h]

theorem natDec_digits (n : Nat) : ∀ c ∈ natDec n, isDigitChar c = true := by
  by_cases h : n = 0
  · subst h; intro c hc; simp [natDec] at hc; subst hc; decide
  · rw [natDec_eq h]
    intro c hc
    simp only [List.mem_reverse, List.mem_map] at hc
    obtain ⟨d, hd, rfl⟩ := hc
    exact isDigitChar_digitChar d (Nat.digits_lt_base (by norm_num) hd)

theorem foldl_ofDigits : ∀ (l : List Nat) (a : Nat),
    l.foldl (fun x d => x * 10 + d) a = a * 10 ^ l.length + Nat.ofDigits 10 l.reverse
  | [], a => by simp
  | d :: l, a => by
    rw [List.foldl_cons, foldl_ofDigits l (a * 10 + d)]
    rw [List.reverse_cons, Nat.ofDigits_append]
    simp [Nat.ofDigits_singleton]
    ring

theorem valNat_natDec (n : Nat) : valNat (natDec n) = n := by
  by_cases h : n = 0
  · subst h; decide
  · rw [natDec_eq h]
    have hmap : ((Nat.digits 10 n).map digitChar).reverse.map charVal
        = (Nat.digits 10 n).reverse := by
      rw [← List.map_reverse, List.map_map]
      have : ∀ d ∈ (Nat.digits 10 n).reverse, (charVal ∘ digitChar) d = id d := by
        intro d hd
        have hlt : d < 10 := Nat.digits_lt_base (by norm_num) (List.mem_reverse.mp hd)
        simp [charVal, Function.comp, digitChar_toNat d hlt]
      rw [List.map_congr_left this, List.map_id]
    have : valNat (((Nat.digits 10 n).map digitChar).reverse)
        = (((Nat.digits 10 n).map digitChar).reverse.map charVal).foldl
            (fun x d => x * 10 + d) 0 := by
      rw [List.foldl_map]
      rfl
    rw [this, hmap, foldl_ofDigits]
    simp [Nat.ofDigits_digits]

/- ### FSM step lemmas -/

theorem fromLoop_nil_start (d : Duration) (buf : List Char) (col : Nat) :
    fromLoop .start d buf col [] = (d, none) := rfl

theorem fromLoop_nil_designator (d : Duration) (buf : List Char) (col : Nat) :
    fromLoop .designator d buf col [] = (d, none) := rfl

theorem fromLoop_nil_t (d : Duration) (buf : List Char) (col : Nat) :
    fromLoop .t d buf col [] = (d, none) := rfl

theorem fromLoop_nil_tdesignator (d : Duration) (buf : List Char) (col : Nat) :
    fromLoop .tdesignator d buf col [] = (d, none) := rfl

theorem fromLoop_nil_p (d : Duration) (buf : List Char) (col : Nat) :
    fromLoop .p d buf col [] = (d, some (.positioned .UnexpectedEof col)) := rfl

theorem step_start_minus (d : Duration) (buf : List Char) (col : Nat) (rest : List Char) :
    fromLoop .start d buf col ('-' :: rest)
      = fromLoop .start { d with hasNegativeSign := true } buf ((col + 1) % 256) rest := by
  simp [fromLoop]

theorem step_start_plus (d : Duration) (buf : List Char) (col : Nat) (rest : List Char) :
    fromLoop .start d buf col ('+' :: rest)
      = fromLoop .start d buf ((col + 1) % 256) rest := by
  simp [fromLoop]

theorem step_start_P (d : Duration) (buf : List Char) (col : Nat) (rest : List Char) :
    fromLoop .start d buf col ('P' :: rest)
      = fromLoop .p d buf ((col + 1) % 256) rest := by
  simp [fromLoop]

theorem step_pd_T {st : St} (hst : st = .p ∨ st = .designator) (d : Duration)
    (buf : List Char) (col : Nat) (rest : List Char) :
    fromLoop st d buf col ('T' :: rest) = fromLoop .t d buf ((col + 1) % 256) rest := by
  rcases hst with rfl | rfl <;> simp [fromLoop]

theorem step_pd_digit {st : St} (hst : st = .p ∨ st = .designator) {c : Char}
    (hc : isDigitChar c = true) (d : Duration) (buf : List Char) (col : Nat)
    (rest : List Char) :
    fromLoop st d buf col (c :: rest)
      = fromLoop .number d (buf ++ [c]) ((col + 1) % 256) rest := by
  have h1 : ¬ (128 ≤ c.toNat) := by have := isDigitChar_bounds hc; omega
  have h2 : ¬ (c = 'T') := by rintro rfl; simp [isDigitChar] at hc
  rcases hst with rfl | rfl <;> simp [fromLoop, h1, h2, hc]

theorem step_number_digit {c : Char} (hc : isDigitChar c = true) (d : Duration)
    (buf : List Char) (col : Nat) (rest : List Char) :
    fromLoop .number d buf col (c :: rest)
      = fromLoop .number d (buf ++ [c]) ((col + 1) % 256) rest := by
  have h1 : ¬ (128 ≤ c.toNat) := by have := isDigitChar_bounds hc; omega
  simp [fromLoop, h1, hc]

theorem step_ttd_digit {st : St} (hst : st = .t ∨ st = .tdesignator) {c : Char}
    (hc : isDigitChar c = true) (d : Duration) (buf : List Char) (col : Nat)
    (rest : List Char) :
    fromLoop st d buf col (c :: rest)
      = fromLoop .tnumber d (buf ++ [c]) ((col + 1) % 256) rest := by
  have h1 : ¬ (128 ≤ c.toNat) := by have := isDigitChar_bounds hc; omega
  rcases hst with rfl | rfl <;> simp [fromLoop, h1, hc]

theorem step_tnumber_digit {c : Char} (hc : isDigitChar c = true) (d : Duration)
    (buf : List Char) (col : Nat) (rest : List Char) :
    fromLoop .tnumber d buf col (c :: rest)
      = fromLoop .tnumber d (buf ++ [c]) ((col + 1) % 256) rest := by
  have h1 : ¬ (128 ≤ c.toNat) := by have := isDigitChar_bounds hc; omega
  simp [fromLoop, h1, hc]

theorem run_number_digits : ∀ (ds : List Char), (∀ c ∈ ds, isDigitChar c = true) →
    ∀ (d : Duration) (buf : List Char) (col : Nat) (rest : List Char),
    ∃ col2, fromLoop .number d buf col (ds ++ rest) = fromLoop .number d (buf ++ ds) col2 rest
  | [], _, d, buf, col, rest => ⟨col, by simp⟩
  | c :: cs, hds, d, buf, col, rest => by
    rw [List.cons_append, step_number_digit (hds c (by simp))]
    obtain ⟨col2, h⟩ := run_number_digits cs (fun x hx => hds x (by simp [hx])) d (buf ++ [c])
      ((col + 1) % 256) rest
    exact ⟨col2, by rw [h]; simp⟩

theorem run_tnumber_digits : ∀ (ds : List Char), (∀ c ∈ ds, isDigitChar c = true) →
    ∀ (d : Duration) (buf : List Char) (col : Nat) (rest : List Char),
    ∃ col2, fromLoop .tnumber d buf col (ds ++ rest) = fromLoop .tnumber d (buf ++ ds) col2 rest
  | [], _, d, buf, col, rest => ⟨col, by simp⟩
  | c :: cs, hds, d, buf, col, rest => by
    rw [List.cons_append, step_tnumber_digit (hds c (by simp))]
    obtain ⟨col2, h⟩ := run_tnumber_digits cs (fun x hx => hds x (by simp [hx])) d (buf ++ [c])
      ((col + 1) % 256) rest
    exact ⟨col2, by rw [h]; simp⟩

theorem close_date {c : Char} (hc : c ∈ defaultDesignators) {buf : List Char}
    (hbuf : buf ≠ []) (hdig : ∀ x ∈ buf, isDigitChar x = true)
    (hval : (valNat buf : Int) ≤ maxInt64) {d : Duration} (hget : dateGet c d = 0)
    (col : Nat) (rest : List Char) :
    fromLoop .number d buf col (c :: rest)
      = fromLoop .designator (dateSet c ((valNat buf : Int)) d) [] ((col + 1) % 256) rest := by
  have hnum : numBufferToNumber buf = .ok ((valNat buf : Int)) := by
    rw [numBufferToNumber_spec buf hdig, if_pos hval]
  simp only [defaultDesignators, List.mem_cons, List.not_mem_nil, or_false] at hc
  rcases hc with rfl | rfl | rfl | rfl <;>
    simp_all [fromLoop, hnum, dateGet, dateSet, isDigitChar, defaultDesignators]

theorem close_date_dup {c : Char} (hc : c ∈ defaultDesignators) {buf : List Char}
    (hbuf : buf ≠ []) (hdig : ∀ x ∈ buf, isDigitChar x = true)
    (hval : (valNat buf : Int) ≤ maxInt64) {d : Duration} (hget : dateGet c d ≠ 0)
    (col : Nat) (rest : List Char) :
    fromLoop .number d buf col (c :: rest)
      = (d, some (.positioned .DuplicateDesignator ((col + 1) % 256))) := by
  have hnum : numBufferToNumber buf = .ok ((valNat buf : Int)) := by
    rw [numBufferToNumber_spec buf hdig, if_pos hval]
  simp only [defaultDesignators, List.mem_cons, List.not_mem_nil, or_false] at hc
  rcases hc with rfl | rfl | rfl | rfl <;>
    simp_all [fromLoop, hnum, dateGet, wrapErr, isDigitChar, defaultDesignators]

theorem close_time {c : Char} (hc : c ∈ timeDesignators) {buf : List Char}
    (hbuf : buf ≠ []) (hdig : ∀ x ∈ buf, isDigitChar x = true)
    (hval : (valNat buf : Int) ≤ maxInt64) {d : Duration} (hget : timeGet c d = 0)
    (col : Nat) (rest : List Char) :
    fromLoop .tnumber d buf col (c :: rest)
      = fromLoop .tdesignator (timeSet c ((valNat buf : Int)) d) [] ((col + 1) % 256) rest := by
  have hnum : numBufferToNumber buf = .ok ((valNat buf : Int)) := by
    rw [numBufferToNumber_spec buf hdig, if_pos hval]
  simp only [timeDesignators, List.mem_cons, List.not_mem_nil, or_false] at hc
  rcases hc with rfl | rfl | rfl <;>
    simp_all [fromLoop, hnum, timeGet, timeSet, isDigitChar, timeDesignators]

theorem close_time_dup {c : Char} (hc : c ∈ timeDesignators) {buf : List Char}
    (hbuf : buf ≠ []) (hdig : ∀ x ∈ buf, isDigitChar x = true)
    (hval : (valNat buf : Int) ≤ maxInt64) {d : Duration} (hget : timeGet c d ≠ 0)
    (col : Nat) (rest : List Char) :
    fromLoop .tnumber d buf col (c :: rest)
      = (d, some (.positioned .DuplicateDesignator ((col + 1) % 256))) := by
  have hnum : numBufferToNumber buf = .ok ((valNat buf : Int)) := by
    rw [numBufferToNumber_spec buf hdig, if_pos hval]
  simp only [timeDesignators, List.mem_cons, List.not_mem_nil, or_false] at hc
  rcases hc with rfl | rfl | rfl <;>
    simp_all [fromLoop, hnum, timeGet, wrapErr, isDigitChar, timeDesignators]

/- ### Group lemmas: a full `<digits><designator>` group -/

theorem date_group {c : Char} (hc : c ∈ defaultDesignators) {v : Int} (hv1 : 1 ≤ v)
    (hv2 : v ≤ maxInt64) {st : St} (hst : st = .p ∨ st = .designator) {d : Duration}
    (hget : dateGet c d = 0) (col : Nat) (rest : List Char) :
    ∃ col2, fromLoop st d [] col (natDec v.toNat ++ c :: rest)
      = fromLoop .designator (dateSet c v d) [] col2 rest := by
  have hdig : ∀ x ∈ natDec v.toNat, isDigitChar x = true := natDec_digits _
  have hvv : ((valNat (natDec v.toNat) : Nat) : Int) = v := by
    rw [valNat_natDec]; exact Int.toNat_of_nonneg (by omega)
  cases hnd : natDec v.toNat with
  | nil => exact absurd hnd (natDec_ne_nil _)
  | cons c0 cs =>
    rw [hnd] at hdig hvv
    have hc0 : isDigitChar c0 = true := hdig c0 (by simp)
    rw [List.cons_append, step_pd_digit hst hc0]
    obtain ⟨col2, hrun⟩ := run_number_digits cs (fun x hx => hdig x (by simp [hx])) d
      ([] ++ [c0]) ((col + 1) % 256) (c :: rest)
    rw [hrun, show ([] ++ [c0]) ++ cs = c0 :: cs by simp]
    rw [close_date hc (by simp) hdig (by rw [hvv]; exact hv2)
      hget col2 rest]
    rw [hvv]
    exact ⟨(col2 + 1) % 256, rfl⟩

theorem time_group {c : Char} (hc : c ∈ timeDesignators) {v : Int} (hv1 : 1 ≤ v)
    (hv2 : v ≤ maxInt64) {st : St} (hst : st = .t ∨ st = .tdesignator) {d : Duration}
    (hget : timeGet c d = 0) (col : Nat) (rest : List Char) :
    ∃ col2, fromLoop st d [] col (natDec v.toNat ++ c :: rest)
      = fromLoop .tdesignator (timeSet c v d) [] col2 rest := by
  have hdig : ∀ x ∈ natDec v.toNat, isDigitChar x = true := natDec_digits _
  have hvv : ((valNat (natDec v.toNat) : Nat) : Int) = v := by
    rw [valNat_natDec]; exact Int.toNat_of_nonneg (by omega)
  cases hnd : natDec v.toNat with
  | nil => exact absurd hnd (natDec_ne_nil _)
  | cons c0 cs =>
    rw [hnd] at hdig hvv
    have hc0 : isDigitChar c0 = true := hdig c0 (by simp)
    rw [List.cons_append, step_ttd_digit hst hc0]
    obtain ⟨col2, hrun⟩ := run_tnumber_digits cs (fun x hx => hdig x (by simp [hx])) d
      ([] ++ [c0]) ((col + 1) % 256) (c :: rest)
    rw [hrun, show ([] ++ [c0]) ++ cs = c0 :: cs by simp]
    rw [close_time hc (by simp) hdig (by rw [hvv]; exact hv2)
      hget col2 rest]
    rw [hvv]
    exact ⟨(col2 + 1) % 256, rfl⟩

theorem date_group_dup {c : Char} (hc : c ∈ defaultDesignators) {v : Int} (hv1 : 0 ≤ v)
    (hv2 : v ≤ maxInt64) {st : St} (hst : st = .p ∨ st = .designator) {d : Duration}
    (hget : dateGet c d ≠ 0) (col : Nat) (rest : List Char) :
    ∃ col2, fromLoop st d [] col (natDec v.toNat ++ c :: rest)
      = (d, some (.positioned .DuplicateDesignator col2)) := by
  have hdig : ∀ x ∈ natDec v.toNat, isDigitChar x = true := natDec_digits _
  have hvv : ((valNat (natDec v.toNat) : Nat) : Int) = v := by
    rw [valNat_natDec]; exact Int.toNat_of_nonneg hv1
  cases hnd : natDec v.toNat with
  | nil => exact absurd hnd (natDec_ne_nil _)
  | cons c0 cs =>
    rw [hnd] at hdig hvv
    have hc0 : isDigitChar c0 = true := hdig c0 (by simp)
    rw [List.cons_append, step_pd_digit hst hc0]
    obtain ⟨col2, hrun⟩ := run_number_digits cs (fun x hx => hdig x (by simp [hx])) d
      ([] ++ [c0]) ((col + 1) % 256) (c :: rest)
    rw [hrun, show ([] ++ [c0]) ++ cs = c0 :: cs by simp]
    rw [close_date_dup hc (by simp) hdig
      (by rw [hvv]; exact hv2) hget col2 rest]
    exact ⟨(col2 + 1) % 256, rfl⟩

theorem time_group_dup {c : Char} (hc : c ∈ timeDesignators) {v : Int} (hv1 : 0 ≤ v)
    (hv2 : v ≤ maxInt64) {st : St} (hst : st = .t ∨ st = .tdesignator) {d : Duration}
    (hget : timeGet c d ≠ 0) (col : Nat) (rest : List Char) :
    ∃ col2, fromLoop st d [] col (natDec v.toNat ++ c :: rest)
      = (d, some (.positioned .DuplicateDesignator col2)) := by
  have hdig : ∀ x ∈ natDec v.toNat, isDigitChar x = true := natDec_digits _
  have hvv : ((valNat (natDec v.toNat) : Nat) : Int) = v := by
    rw [valNat_natDec]; exact Int.toNat_of_nonneg hv1
  cases hnd : natDec v.toNat with
  | nil => exact absurd hnd (natDec_ne_nil _)
  | cons c0 cs =>
    rw [hnd] at hdig hvv
    have hc0 : isDigitChar c0 = true := hdig c0 (by simp)
    rw [List.cons_append, step_ttd_digit hst hc0]
    obtain ⟨col2, hrun⟩ := run_tnumber_digits cs (fun x hx => hdig x (by simp [hx])) d
      ([] ++ [c0]) ((col + 1) % 256) (c :: rest)
    rw [hrun, show ([] ++ [c0]) ++ cs = c0 :: cs by simp]
    rw [close_time_dup hc (by simp) hdig
      (by rw [hvv]; exact hv2) hget col2 rest]
    exact ⟨(col2 + 1) % 256, rfl⟩

theorem formatInt_nonneg {v : Int} (h : 0 ≤ v) : formatInt v = natDec v.toNat := by
  rw [formatInt, if_neg (by omega)]

theorem opt_date_group {c : Char} (hc : c ∈ defaultDesignators) {v : Int} (hv1 : 0 ≤ v)
    (hv2 : v ≤ maxInt64) {st : St} (hst : st = .p ∨ st = .designator) {d : Duration}
    (hget : dateGet c d = 0) (col : Nat) (rest : List Char) :
    ∃ col2, fromLoop st d [] col ((if 0 < v then formatInt v ++ [c] else []) ++ rest)
      = fromLoop (if 0 < v then .designator else st) (if 0 < v then dateSet c v d else d)
          [] col2 rest := by
  by_cases hv : 0 < v
  · rw [if_pos hv, if_pos hv, if_pos hv, formatInt_nonneg hv1, List.append_assoc,
      List.singleton_append]
    exact date_group hc (by omega) hv2 hst hget col rest
  · rw [if_neg hv, if_neg hv, if_neg hv, List.nil_append]
    exact ⟨col, rfl⟩

theorem opt_time_group {c : Char} (hc : c ∈ timeDesignators) {v : Int} (hv1 : 0 ≤ v)
    (hv2 : v ≤ maxInt64) {st : St} (hst : st = .t ∨ st = .tdesignator) {d : Duration}
    (hget : timeGet c d = 0) (col : Nat) (rest : List Char) :
    ∃ col2, fromLoop st d [] col ((if 0 < v then formatInt v ++ [c] else []) ++ rest)
      = fromLoop (if 0 < v then .tdesignator else st) (if 0 < v then timeSet c v d else d)
          [] col2 rest := by
  by_cases hv : 0 < v
  · rw [if_pos hv, if_pos hv, if_pos hv, formatInt_nonneg hv1, List.append_assoc,
      List.singleton_append]
    exact time_group hc (by omega) hv2 hst hget col rest
  · rw [if_neg hv, if_neg hv, if_neg hv, List.nil_append]
    exact ⟨col, rfl⟩

theorem parse_after_P (neg : Bool) (y mo wk dy hr mi sec : Int)
    (hy0 : 0 ≤ y) (hyM : y ≤ maxInt64) (hmo0 : 0 ≤ mo) (hmoM : mo ≤ maxInt64)
    (hwk0 : 0 ≤ wk) (hwkM : wk ≤ maxInt64) (hdy0 : 0 ≤ dy) (hdyM : dy ≤ maxInt64)
    (hhr0 : 0 ≤ hr) (hhrM : hr ≤ maxInt64) (hmi0 : 0 ≤ mi) (hmiM : mi ≤ maxInt64)
    (hsec0 : 0 ≤ sec) (hsecM : sec ≤ maxInt64) (col : Nat) :
    fromLoop .p ⟨neg, 0, 0, 0, 0, 0, 0, 0⟩ [] col
      (if y = 0 ∧ mo = 0 ∧ wk = 0 ∧ dy = 0 ∧ hr = 0 ∧ mi = 0 ∧ sec = 0
       then ['0', 'D']
       else
         (if 0 < y then formatInt y ++ ['Y'] else []) ++
         (if 0 < mo then formatInt mo ++ ['M'] else []) ++
         (if 0 < wk then formatInt wk ++ ['W'] else []) ++
         (if 0 < dy then formatInt dy ++ ['D'] else []) ++
         (if 0 < hr ∨ 0 < mi ∨ 0 < sec
          then 'T' :: ((if 0 < hr then formatInt hr ++ ['H'] else []) ++
                       (if 0 < mi then formatInt mi ++ ['M'] else []) ++
                       (if 0 < sec then formatInt sec ++ ['S'] else []))
          else []))
      = (⟨neg, y, mo, wk, dy, hr, mi, sec⟩, none) := by
  by_cases hall : y = 0 ∧ mo = 0 ∧ wk = 0 ∧ dy = 0 ∧ hr = 0 ∧ mi = 0 ∧ sec = 0
  · obtain ⟨rfl, rfl, rfl, rfl, rfl, rfl, rfl⟩ := hall
    rw [if_pos ⟨rfl, rfl, rfl, rfl, rfl, rfl, rfl⟩]
    rw [show (['0', 'D'] : List Char) = '0' :: 'D' :: [] from rfl]
    rw [step_pd_digit (Or.inl rfl) (by decide)]
    rw [show ([] : List Char) ++ ['0'] = ['0'] from rfl]
    rw [close_date (c := 'D') (by decide) (by simp) (by decide)
      (by decide) (by simp [dateGet]) _ _]
    rw [fromLoop_nil_designator]
    rfl
  · rw [if_neg hall]
    simp only [List.append_assoc]
    obtain ⟨col1, h1⟩ := opt_date_group (c := 'Y') (by decide) hy0 hyM
      (Or.inl rfl) (d := ⟨neg, 0, 0, 0, 0, 0, 0, 0⟩) rfl col _
    rw [h1]
    set st1 : St := if 0 < y then St.designator else St.p with hst1
    set d1 : Duration := if 0 < y then dateSet 'Y' y ⟨neg, 0, 0, 0, 0, 0, 0, 0⟩
      else ⟨neg, 0, 0, 0, 0, 0, 0, 0⟩ with hd1
    have hst1p : st1 = .p ∨ st1 = .designator := by rw [hst1]; split <;> simp
    obtain ⟨col2, h2⟩ := opt_date_group (c := 'M') (by decide) hmo0 hmoM hst1p
      (d := d1) (by rw [hd1]; split <;> simp [dateGet, dateSet]) col1 _
    rw [h2]
    set st2 : St := if 0 < mo then St.designator else st1 with hst2
    set d2 : Duration := if 0 < mo then dateSet 'M' mo d1 else d1 with hd2
    have hst2p : st2 = .p ∨ st2 = .designator := by
      rw [hst2]; rcases hst1p with h | h <;> rw [h] <;> split <;> simp
    obtain ⟨col3, h3⟩ := opt_date_group (c := 'W') (by decide) hwk0 hwkM hst2p
      (d := d2) (by rw [hd2, hd1]; split_ifs <;> simp [dateGet, dateSet]) col2 _
    rw [h3]
    set st3 : St := if 0 < wk then St.designator else st2 with hst3
    set d3 : Duration := if 0 < wk then dateSet 'W' wk d2 else d2 with hd3
    have hst3p : st3 = .p ∨ st3 = .designator := by
      rw [hst3]; rcases hst2p with h | h <;> rw [h] <;> split <;> simp
    obtain ⟨col4, h4⟩ := opt_date_group (c := 'D') (by decide) hdy0 hdyM hst3p
      (d := d3) (by rw [hd3, hd2, hd1]; split_ifs <;> simp [dateGet, dateSet]) col3 _
    rw [h4]
    set st4 : St := if 0 < dy then St.designator else st3 with hst4
    set d4 : Duration := if 0 < dy then dateSet 'D' dy d3 else d3 with hd4
    have hst4p : st4 = .p ∨ st4 = .designator := by
      rw [hst4]; rcases hst3p with h | h <;> rw [h] <;> split <;> simp
    have hd4v : d4 = ⟨neg, y, mo, wk, dy, 0, 0, 0⟩ := by
      rw [hd4, hd3, hd2, hd1]
      split_ifs <;> simp [dateSet, Duration.mk.injEq] <;> omega
    by_cases htime : 0 < hr ∨ 0 < mi ∨ 0 < sec
    · rw [if_pos htime, step_pd_T hst4p, hd4v]
      obtain ⟨col5, h5⟩ := opt_time_group (c := 'H') (by decide) hhr0 hhrM
        (Or.inl rfl) (d := ⟨neg, y, mo, wk, dy, 0, 0, 0⟩) rfl ((col4 + 1) % 256) _
      rw [h5]
      set stt1 : St := if 0 < hr then St.tdesignator else St.t with hstt1
      set dt1 : Duration := if 0 < hr then timeSet 'H' hr ⟨neg, y, mo, wk, dy, 0, 0, 0⟩
        else ⟨neg, y, mo, wk, dy, 0, 0, 0⟩ with hdt1
      have hstt1p : stt1 = .t ∨ stt1 = .tdesignator := by rw [hstt1]; split <;> simp
      obtain ⟨col6, h6⟩ := opt_time_group (c := 'M') (by decide) hmi0 hmiM hstt1p
        (d := dt1) (by rw [hdt1]; split <;> simp [timeGet, timeSet]) col5 _
      rw [h6]
      set stt2 : St := if 0 < mi then St.tdesignator else stt1 with hstt2
      set dt2 : Duration := if 0 < mi then timeSet 'M' mi dt1 else dt1 with hdt2
      have hstt2p : stt2 = .t ∨ stt2 = .tdesignator := by
        rw [hstt2]; rcases hstt1p with h | h <;> rw [h] <;> split <;> simp
      have hdt2v : dt2 = ⟨neg, y, mo, wk, dy, hr, mi, 0⟩ := by
        rw [hdt2, hdt1]
        split_ifs <;> simp [timeSet, Duration.mk.injEq] <;> omega
      by_cases hsec : 0 < sec
      · rw [if_pos hsec, formatInt_nonneg hsec0]
        obtain ⟨col7, h7⟩ := time_group (c := 'S') (by decide) (by omega) hsecM hstt2p
          (d := dt2) (by rw [hdt2v]; rfl) col6 []
        rw [h7, fromLoop_nil_tdesignator]
        rw [show timeSet 'S' sec dt2 = ⟨neg, y, mo, wk, dy, hr, mi, sec⟩ by
          rw [hdt2v]; simp [timeSet]]
      · rw [if_neg hsec]
        have hsv : sec = 0 := by omega
        rcases hstt2p with h | h <;> rw [h, hdt2v]
        · rw [fromLoop_nil_t, hsv]
        · rw [fromLoop_nil_tdesignator, hsv]
    · rw [if_neg htime]
      have hAnyD : 0 < y ∨ 0 < mo ∨ 0 < wk ∨ 0 < dy := by omega
      have hst4d : st4 = .designator := by
        rw [hst4, hst3, hst2, hst1]
        rcases hAnyD with h | h | h | h <;> split_ifs <;> rfl
      rw [hst4d, fromLoop_nil_designator, hd4v]
      have h5 : hr = 0 := by omega
      have h6 : mi = 0 := by omega
      have h7 : sec = 0 := by omega
      rw [h5, h6, h7]

/-- Claim C1: round-trip law: for every `Duration` whose seven components
(year, month, week, day, hour, minute, second) are non-negative int64
magnitudes, parsing the canonical serialization succeeds and returns exactly
the same `Duration` with no error — including the zero `Duration` and
`Duration`s with the negative-sign flag set. -/
theorem round_trip_From_String (d : Duration)
    (hy0 : 0 ≤ d.year) (hyM : d.year ≤ maxInt64)
    (hmo0 : 0 ≤ d.month) (hmoM : d.month ≤ maxInt64)
    (hwk0 : 0 ≤ d.week) (hwkM : d.week ≤ maxInt64)
    (hdy0 : 0 ≤ d.day) (hdyM : d.day ≤ maxInt64)
    (hhr0 : 0 ≤ d.hour) (hhrM : d.hour ≤ maxInt64)
    (hmi0 : 0 ≤ d.minute) (hmiM : d.minute ≤ maxInt64)
    (hs0 : 0 ≤ d.second) (hsM : d.second ≤ maxInt64) :
    From d.String = (d, none) := by
  obtain ⟨neg, y, mo, wk, dy, hr, mi, sec⟩ := d
  cases neg with
  | false =>
    rw [show Duration.String ⟨false, y, mo, wk, dy, hr, mi, sec⟩ = 'P' ::
      (if y = 0 ∧ mo = 0 ∧ wk = 0 ∧ dy = 0 ∧ hr = 0 ∧ mi = 0 ∧ sec = 0
       then ['0', 'D']
       else
         (if 0 < y then formatInt y ++ ['Y'] else []) ++
         (if 0 < mo then formatInt mo ++ ['M'] else []) ++
         (if 0 < wk then formatInt wk ++ ['W'] else []) ++
         (if 0 < dy then formatInt dy ++ ['D'] else []) ++
         (if 0 < hr ∨ 0 < mi ∨ 0 < sec
          then 'T' :: ((if 0 < hr then formatInt hr ++ ['H'] else []) ++
                       (if 0 < mi then formatInt mi ++ ['M'] else []) ++
                       (if 0 < sec then formatInt sec ++ ['S'] else []))
          else [])) from rfl]
    rw [From, if_neg (by simp), step_start_P]
    exact parse_after_P false y mo wk dy hr mi sec hy0 hyM hmo0 hmoM hwk0 hwkM hdy0 hdyM
      hhr0 hhrM hmi0 hmiM hs0 hsM ((0 + 1) % 256)
  | true =>
    rw [show Duration.String ⟨true, y, mo, wk, dy, hr, mi, sec⟩ = '-' :: 'P' ::
      (if y = 0 ∧ mo = 0 ∧ wk = 0 ∧ dy = 0 ∧ hr = 0 ∧ mi = 0 ∧ sec = 0
       then ['0', 'D']
       else
         (if 0 < y then formatInt y ++ ['Y'] else []) ++
         (if 0 < mo then formatInt mo ++ ['M'] else []) ++
         (if 0 < wk then formatInt wk ++ ['W'] else []) ++
         (if 0 < dy then formatInt dy ++ ['D'] else []) ++
         (if 0 < hr ∨ 0 < mi ∨ 0 < sec
          then 'T' :: ((if 0 < hr then formatInt hr ++ ['H'] else []) ++
                       (if 0 < mi then formatInt mi ++ ['M'] else []) ++
                       (if 0 < sec then formatInt sec ++ ['S'] else []))
          else [])) from rfl]
    rw [From, if_neg (by simp), step_start_minus, step_start_P]
    exact parse_after_P true y mo wk dy hr mi sec hy0 hyM hmo0 hmoM hwk0 hwkM hdy0 hdyM
      hhr0 hhrM hmi0 hmiM hs0 hsM (((0 + 1) % 256 + 1) % 256)

/-- Witness for C1 at a concrete negative-flagged input. -/
theorem round_trip_From_String_witness :
    From (Duration.String { hasNegativeSign := true, minute := 15 })
      = ({ hasNegativeSign := true, minute := 15 }, none) :=
  round_trip_From_String { hasNegativeSign := true, minute := 15 }
    (by decide) (by decide) (by decide) (by decide) (by decide) (by decide) (by decide)
    (by decide) (by decide) (by decide) (by decide) (by decide) (by decide) (by decide)

/- ### Helpers for the duplicate/overflow/coexistence claims -/

theorem dateGet_default (c : Char) : dateGet c {} = 0 := by
  unfold dateGet; split_ifs <;> rfl

theorem timeGet_default (c : Char) : timeGet c {} = 0 := by
  unfold timeGet; split_ifs <;> rfl

theorem dateGet_dateSet_self {c : Char} (hc : c ∈ defaultDesignators) (v : Int) (d : Duration) :
    dateGet c (dateSet c v d) = v := by
  simp only [defaultDesignators, List.mem_cons, List.not_mem_nil, or_false] at hc
  rcases hc with rfl | rfl | rfl | rfl <;> simp [dateGet, dateSet]

theorem timeGet_timeSet_self {c : Char} (hc : c ∈ timeDesignators) (v : Int) (d : Duration) :
    timeGet c (timeSet c v d) = v := by
  simp only [timeDesignators, List.mem_cons, List.not_mem_nil, or_false] at hc
  rcases hc with rfl | rfl | rfl <;> simp [timeGet, timeSet]

theorem close_date_overflow {c : Char} (hc : c ∈ defaultDesignators) {buf : List Char}
    (hbuf : buf ≠ []) (hdig : ∀ x ∈ buf, isDigitChar x = true)
    (hval : ¬ ((valNat buf : Int) ≤ maxInt64)) (d : Duration) (col : Nat) (rest : List Char) :
    fromLoop .number d buf col (c :: rest)
      = (d, some (.bare .DesignatorNumberTooLarge)) := by
  have hnum : numBufferToNumber buf = .error (.bare .DesignatorNumberTooLarge) := by
    rw [numBufferToNumber_spec buf hdig, if_neg hval]
  simp only [defaultDesignators, List.mem_cons, List.not_mem_nil, or_false] at hc
  rcases hc with rfl | rfl | rfl | rfl <;>
    simp_all [fromLoop, hnum, isDigitChar, defaultDesignators]

/-- Claim C2 counterexample: the duplicate `Y` designator in `"P0Y1Y"` is not
rejected, because the first occurrence assigned the value zero; the parse
succeeds with `year = 1`. -/
theorem duplicate_zero_first_accepted : From "P0Y1Y".data = ({ year := 1 }, none) := by decide

/-- Claim C2 (amended): a repeated designator among `Y,M,W,D` or among `H,M,S`
is rejected with `DuplicateDesignator` when the earlier occurrence assigned a
non-zero value; the duplicate check tests the component against zero, not
whether it was previously set. -/
theorem duplicate_nonzero_rejected (c ct : Char) (hc : c ∈ defaultDesignators)
    (hct : ct ∈ timeDesignators) (a b : Int) (ha1 : 1 ≤ a) (haM : a ≤ maxInt64)
    (hb0 : 0 ≤ b) (hbM : b ≤ maxInt64) :
    (∃ col, From ('P' :: (natDec a.toNat ++ c :: (natDec b.toNat ++ [c])))
        = (dateSet c a {}, some (.positioned .DuplicateDesignator col))) ∧
    (∃ col, From ('P' :: 'T' :: (natDec a.toNat ++ ct :: (natDec b.toNat ++ [ct])))
        = (timeSet ct a {}, some (.positioned .DuplicateDesignator col))) := by
  constructor
  · rw [From, if_neg (by simp), step_start_P]
    obtain ⟨col1, h1⟩ := date_group hc ha1 haM (Or.inl rfl) (dateGet_default c)
      ((0 + 1) % 256) (natDec b.toNat ++ [c])
    rw [h1]
    obtain ⟨col2, h2⟩ := date_group_dup hc hb0 hbM (Or.inr rfl) (d := dateSet c a {})
      (by rw [dateGet_dateSet_self hc]; omega) col1 []
    rw [show (natDec b.toNat ++ [c] : List Char) = natDec b.toNat ++ c :: [] from rfl] at h2 ⊢
    rw [h2]
    exact ⟨col2, rfl⟩
  · rw [From, if_neg (by simp), step_start_P, step_pd_T (Or.inl rfl)]
    obtain ⟨col1, h1⟩ := time_group hct ha1 haM (Or.inl rfl) (timeGet_default ct)
      (((0 + 1) % 256 + 1) % 256) (natDec b.toNat ++ [ct])
    rw [h1]
    obtain ⟨col2, h2⟩ := time_group_dup hct hb0 hbM (Or.inr rfl) (d := timeSet ct a {})
      (by rw [timeGet_timeSet_self hct]; omega) col1 []
    rw [show (natDec b.toNat ++ [ct] : List Char) = natDec b.toNat ++ ct :: [] from rfl] at h2 ⊢
    rw [h2]
    exact ⟨col2, rfl⟩

/-- Witness for the amended C2: `"P1Y2Y"` and `"PT1S2S"` both fail with a
positioned `DuplicateDesignator` error. -/
theorem duplicate_nonzero_rejected_witness :
    (∃ col, From ('P' :: (natDec (1 : Int).toNat ++ 'Y' :: (natDec (2 : Int).toNat ++ ['Y'])))
        = (dateSet 'Y' 1 {}, some (.positioned .DuplicateDesignator col))) ∧
    (∃ col, From ('P' :: 'T' :: (natDec (1 : Int).toNat ++ 'S' :: (natDec (2 : Int).toNat ++ ['S'])))
        = (timeSet 'S' 1 {}, some (.positioned .DuplicateDesignator col))) :=
  duplicate_nonzero_rejected 'Y' 'S' (by decide) (by decide) 1 2 (by decide) (by decide)
    (by decide) (by decide)

/-- Claim C3 counterexample: `From("-X")` fails, yet the `Duration` returned
alongside the error has the negative-sign flag set, so it is not zero-valued. -/
theorem error_result_not_zero :
    From "-X".data = ({ hasNegativeSign := true }, some (.positioned .MissingPDesignatorAtStart 2))
      ∧ ({ hasNegativeSign := true } : Duration) ≠ {} := by decide

/-- Claim C3 (amended): a failed parse returns the partially accumulated
`Duration` (sign flag and components consumed before the failure are kept)
alongside the error, not necessarily the zero value; e.g. `From("P1YX")`
returns `year = 1` with its `MissingNumber` error. -/
theorem error_result_partial :
    From "P1YX".data = ({ year := 1 }, some (.positioned .MissingNumber 4)) := by decide

/-- Claim C5 counterexample: the zero `Duration` serializes to `"P0D"`, not to
the bare sentinel `"0D"`, and the output does depend on the negative-sign
flag. -/
theorem zero_string_not_bare_sentinel :
    Duration.String {} ≠ "0D".data
      ∧ Duration.String { hasNegativeSign := true } ≠ Duration.String {} := by decide

/-- Claim C5 (amended): serializing a `Duration` whose seven components are all
zero yields `"P0D"`, or `"-P0D"` when the negative-sign flag is set: the `0D`
sentinel follows the sign and the `P` prefix. -/
theorem zero_serializes_P0D (d : Duration)
    (h : d.year = 0 ∧ d.month = 0 ∧ d.week = 0 ∧ d.day = 0 ∧ d.hour = 0 ∧ d.minute = 0
      ∧ d.second = 0) :
    d.String = if d.hasNegativeSign then "-P0D".data else "P0D".data := by
  obtain ⟨neg, y, mo, wk, dy, hr, mi, sec⟩ := d
  obtain ⟨rfl, rfl, rfl, rfl, rfl, rfl, rfl⟩ := h
  cases neg <;> rfl

/-- Witness for the amended C5 at the negative-flagged zero `Duration`. -/
theorem zero_serializes_P0D_witness :
    Duration.String { hasNegativeSign := true }
      = if ({ hasNegativeSign := true } : Duration).hasNegativeSign
        then "-P0D".data else "P0D".data :=
  zero_serializes_P0D { hasNegativeSign := true } (by decide)

/-- Claim C6 counterexample: the error for `"P1A"` does not carry column 4. -/
theorem column_P1A_not_four :
    (From "P1A".data).2 ≠ some (.positioned .UnknownDesignator 4) := by decide

/-- Claim C6 (amended): `From("P1A")` fails with `UnknownDesignator` at
column 3 — the 1-indexed position of the offending `'A'`, the column counter
being incremented once per character consumed. -/
theorem column_P1A_is_three :
    From "P1A".data = ({}, some (.positioned .UnknownDesignator 3)) := by decide

/-- Claim C7: overflow detection — closing a nonempty digit run with a
designator fails with `DesignatorNumberTooLarge` exactly when the run's decimal
value exceeds `2^63 - 1`; any run whose value fits (of any length, leading
zeros included) is converted exactly. -/
theorem overflow_detection (ds : List Char) (hne : ds ≠ [])
    (hdig : ∀ c ∈ ds, isDigitChar c = true) :
    From ('P' :: (ds ++ ['D']))
      = if (valNat ds : Int) ≤ maxInt64 then ({ day := (valNat ds : Int) }, none)
        else ({}, some (.bare .DesignatorNumberTooLarge)) := by
  cases ds with
  | nil => exact absurd rfl hne
  | cons c0 cs =>
    rw [From, if_neg (by simp), step_start_P, List.cons_append,
      step_pd_digit (Or.inl rfl) (hdig c0 (by simp))]
    obtain ⟨col2, hrun⟩ := run_number_digits cs (fun x hx => hdig x (by simp [hx]))
      {} ([] ++ [c0]) (((0 + 1) % 256 + 1) % 256) ['D']
    rw [hrun, show ([] ++ [c0]) ++ cs = c0 :: cs by simp]
    by_cases hle : (valNat (c0 :: cs) : Int) ≤ maxInt64
    · rw [if_pos hle,
        show (['D'] : List Char) = 'D' :: [] from rfl,
        close_date (c := 'D') (by decide) (by simp) hdig hle (d := {}) rfl col2 [],
        fromLoop_nil_designator]
      rfl
    · rw [if_neg hle,
        show (['D'] : List Char) = 'D' :: [] from rfl,
        close_date_overflow (c := 'D') (by decide) (by simp) hdig hle {} col2 []]

/-- Witness for C7: a run of twenty nines exceeds `2^63 - 1` and is rejected. -/
theorem overflow_detection_witness :
    From ('P' :: (List.replicate 20 '9' ++ ['D']))
      = if (valNat (List.replicate 20 '9') : Int) ≤ maxInt64
        then ({ day := (valNat (List.replicate 20 '9') : Int) }, none)
        else ({}, some (.bare .DesignatorNumberTooLarge)) :=
  overflow_detection (List.replicate 20 '9') (by decide) (by decide)

/-- Claim C9: week coexistence — a `W` component may be followed by further
distinct designators; `P{a}W{b}D` parses to `week = a, day = b`, and
`P{a}W{b}DT{c}H` additionally stores `hour = c`. -/
theorem week_coexists_with_later_designators (a b c : Int)
    (ha1 : 1 ≤ a) (haM : a ≤ maxInt64) (hb1 : 1 ≤ b) (hbM : b ≤ maxInt64)
    (hc1 : 1 ≤ c) (hcM : c ≤ maxInt64) :
    From ('P' :: (natDec a.toNat ++ 'W' :: (natDec b.toNat ++ ['D'])))
      = ({ week := a, day := b }, none) ∧
    From ('P' :: (natDec a.toNat ++ 'W' :: (natDec b.toNat ++ 'D' ::
        'T' :: (natDec c.toNat ++ ['H']))))
      = ({ week := a, day := b, hour := c }, none) := by
  constructor
  · rw [From, if_neg (by simp), step_start_P]
    obtain ⟨col1, h1⟩ := date_group (c := 'W') (by decide) ha1 haM (Or.inl rfl)
      (d := {}) rfl ((0 + 1) % 256) (natDec b.toNat ++ ['D'])
    rw [h1]
    obtain ⟨col2, h2⟩ := date_group (c := 'D') (by decide) hb1 hbM (Or.inr rfl)
      (d := dateSet 'W' a {}) rfl col1 []
    rw [show (natDec b.toNat ++ ['D'] : List Char) = natDec b.toNat ++ 'D' :: [] from rfl,
      h2, fromLoop_nil_designator]
    rfl
  · rw [From, if_neg (by simp), step_start_P]
    obtain ⟨col1, h1⟩ := date_group (c := 'W') (by decide) ha1 haM (Or.inl rfl)
      (d := {}) rfl ((0 + 1) % 256)
      (natDec b.toNat ++ 'D' :: 'T' :: (natDec c.toNat ++ ['H']))
    rw [h1]
    obtain ⟨col2, h2⟩ := date_group (c := 'D') (by decide) hb1 hbM (Or.inr rfl)
      (d := dateSet 'W' a {}) rfl col1 ('T' :: (natDec c.toNat ++ ['H']))
    rw [h2, step_pd_T (Or.inr rfl)]
    obtain ⟨col3, h3⟩ := time_group (c := 'H') (by decide) hc1 hcM (Or.inl rfl)
      (d := dateSet 'D' b (dateSet 'W' a {})) rfl ((col2 + 1) % 256) []
    rw [show (natDec c.toNat ++ ['H'] : List Char) = natDec c.toNat ++ 'H' :: [] from rfl,
      h3, fromLoop_nil_tdesignator]
    rfl

/-- Witness for C9 at `a = 1, b = 2, c = 3`. -/
theorem week_coexists_with_later_designators_witness :
    From ('P' :: (natDec (1 : Int).toNat ++ 'W' :: (natDec (2 : Int).toNat ++ ['D'])))
      = ({ week := 1, day := 2 }, none) ∧
    From ('P' :: (natDec (1 : Int).toNat ++ 'W' :: (natDec (2 : Int).toNat ++ 'D' ::
        'T' :: (natDec (3 : Int).toNat ++ ['H']))))
      = ({ week := 1, day := 2, hour := 3 }, none) :=
  week_coexists_with_later_designators 1 2 3 (by decide) (by decide) (by decide) (by decide)
    (by decide) (by decide)

/- ### Grammar surface (C8) -/

theorem signRun_accepted : ∀ (k : Nat) (d : Duration) (buf : List Char) (col : Nat),
    fromLoop .start d buf col (List.replicate (k + 1) '-')
      = ({ d with hasNegativeSign := true }, none)
  | 0, d, buf, col => by
    rw [show List.replicate 1 '-' = '-' :: [] from rfl, step_start_minus, fromLoop_nil_start]
  | k + 1, d, buf, col => by
    rw [show List.replicate (k + 2) '-' = '-' :: List.replicate (k + 1) '-' from rfl,
      step_start_minus]
    exact signRun_accepted k { d with hasNegativeSign := true } buf ((col + 1) % 256)

/-- Claim C8 counterexample: the grammar surface is not exact in either
direction — the bare `"P"` is matched by the grammar but rejected by the
parser, while `"--P1D"` (two sign characters) is outside the grammar but
accepted. -/
theorem grammar_not_exact :
    grammarMatches "P".data = true
      ∧ (From "P".data).2 = some (.positioned .UnexpectedEof 1)
      ∧ grammarMatches "--P1D".data = false
      ∧ (From "--P1D".data).2 = none := by decide

/-- Claim C8 (amended): the accepted language deviates from the grammar
`[+-]? 'P' (nY)? (nM)? (nW)? (nD)? ('T' (nH)? (nM)? (nS)?)?` as follows: any
number of leading sign characters is accepted; a nonempty run of signs with no
`'P'` at all is accepted; the bare `"P"` is rejected with `UnexpectedEof`;
date designators are accepted in any order; a digit run whose value exceeds
`2^63 - 1` is rejected even though the grammar's digits are unbounded; and
designators are case-sensitive, so lowercase input is rejected. -/
theorem grammar_surface_corrected (k : Nat) (hk : 1 ≤ k) :
    From (List.replicate k '-') = ({ hasNegativeSign := true }, none)
      ∧ From "P".data = ({}, some (.positioned .UnexpectedEof 1))
      ∧ From "P1D2Y".data = ({ year := 2, day := 1 }, none)
      ∧ From ('P' :: (List.replicate 19 '9' ++ ['Y']))
          = ({}, some (.bare .DesignatorNumberTooLarge))
      ∧ From "p1d".data = ({}, some (.positioned .MissingPDesignatorAtStart 1)) := by
  refine ⟨?_, by decide, by decide, by decide, by decide⟩
  obtain ⟨k2, rfl⟩ : ∃ k2, k = k2 + 1 := ⟨k - 1, by omega⟩
  rw [From, if_neg (by simp), signRun_accepted]

/-- Witness for the amended C8 at a run of three signs. -/
theorem grammar_surface_corrected_witness :
    From (List.replicate 3 '-') = ({ hasNegativeSign := true }, none)
      ∧ From "P".data = ({}, some (.positioned .UnexpectedEof 1))
      ∧ From "P1D2Y".data = ({ year := 2, day := 1 }, none)
      ∧ From ('P' :: (List.replicate 19 '9' ++ ['Y']))
          = ({}, some (.bare .DesignatorNumberTooLarge))
      ∧ From "p1d".data = ({}, some (.positioned .MissingPDesignatorAtStart 1)) :=
  grammar_surface_corrected 3 (by decide)

theorem numAccumGo_error : ∀ (ds : List Char) (i : Int) (e : GoError),
    numAccumGo i ds = .error e → e = .bare .DesignatorNumberTooLarge
  | [], i, e, h => by simp [numAccumGo] at h
  | c :: cs, i, e, h => by
    simp only [numAccumGo] at h
    split at h
    · simpa using h.symm
    · exact numAccumGo_error cs _ e h

theorem fromLoop_error_shape : ∀ (xs : List Char) (st : St) (d : Duration) (buf : List Char)
    (col : Nat) (e : GoError), (fromLoop st d buf col xs).2 = some e →
    (∃ k c2, e = .positioned k c2) ∨ e = .bare .DesignatorNumberTooLarge := by
  intro xs
  induction xs with
  | nil =>
    intro st d buf col e h
    cases st <;> simp [fromLoop, wrapErr] at h <;> exact Or.inl ⟨_, _, h.symm⟩
  | cons c rest ih =>
    intro st d buf col e h
    by_cases h128 : 128 ≤ c.toNat
    · cases st <;> simp only [fromLoop, if_pos h128] at h <;>
        · simp [wrapErr] at h; exact Or.inl ⟨_, _, h.symm⟩
    · cases st <;> simp only [fromLoop, if_neg h128] at h
      · split at h
        · exact ih _ _ _ _ _ h
        · split at h
          · exact ih _ _ _ _ _ h
          · split at h
            · exact ih _ _ _ _ _ h
            · simp [wrapErr] at h; exact Or.inl ⟨_, _, h.symm⟩
      · split at h
        · exact ih _ _ _ _ _ h
        · split at h
          · exact ih _ _ _ _ _ h
          · simp [wrapErr] at h; exact Or.inl ⟨_, _, h.symm⟩
      · split at h
        · exact ih _ _ _ _ _ h
        · split at h
          · split at h
            · simp [wrapErr] at h; exact Or.inl ⟨_, _, h.symm⟩
            · split at h
              case _ e2 heq =>
                simp at h
                exact Or.inr (h.symm.trans (numAccumGo_error _ _ _ heq))
              case _ num heq =>
                split at h
                · split at h
                  · simp [wrapErr] at h; exact Or.inl ⟨_, _, h.symm⟩
                  · exact ih _ _ _ _ _ h
                · split at h
                  · split at h
                    · simp [wrapErr] at h; exact Or.inl ⟨_, _, h.symm⟩
                    · exact ih _ _ _ _ _ h
                  · split at h
                    · split at h
                      · simp [wrapErr] at h; exact Or.inl ⟨_, _, h.symm⟩
                      · exact ih _ _ _ _ _ h
                    · split at h
                      · split at h
                        · simp [wrapErr] at h; exact Or.inl ⟨_, _, h.symm⟩
                        · exact ih _ _ _ _ _ h
                      · exact ih _ _ _ _ _ h
          · simp [wrapErr] at h; exact Or.inl ⟨_, _, h.symm⟩
      · split at h
        · exact ih _ _ _ _ _ h
        · split at h
          · exact ih _ _ _ _ _ h
          · simp [wrapErr] at h; exact Or.inl ⟨_, _, h.symm⟩
      · split at h
        · exact ih _ _ _ _ _ h
        · simp [wrapErr] at h; exact Or.inl ⟨_, _, h.symm⟩
      · split at h
        · exact ih _ _ _ _ _ h
        · split at h
          · split at h
            · simp [wrapErr] at h; exact Or.inl ⟨_, _, h.symm⟩
            · split at h
              case _ e2 heq =>
                simp at h
                exact Or.inr (h.symm.trans (numAccumGo_error _ _ _ heq))
              case _ num heq =>
                split at h
                · split at h
                  · simp [wrapErr] at h; exact Or.inl ⟨_, _, h.symm⟩
                  · exact ih _ _ _ _ _ h
                · split at h
                  · split at h
                    · simp [wrapErr] at h; exact Or.inl ⟨_, _, h.symm⟩
                    · exact ih _ _ _ _ _ h
                  · split at h
                    · split at h
                      · simp [wrapErr] at h; exact Or.inl ⟨_, _, h.symm⟩
                      · exact ih _ _ _ _ _ h
                    · exact ih _ _ _ _ _ h
          · simp [wrapErr] at h; exact Or.inl ⟨_, _, h.symm⟩
      · split at h
        · exact ih _ _ _ _ _ h
        · simp [wrapErr] at h; exact Or.inl ⟨_, _, h.symm⟩

/-- Claim C4 counterexample: the overflow error raised while converting the
digit buffer is returned unwrapped — it is a bare error value carrying no
column, not an `ISO8601DurationError`. -/
theorem overflow_error_unpositioned :
    From ('P' :: (List.replicate 20 '9' ++ ['Y']))
      = ({}, some (.bare .DesignatorNumberTooLarge)) := by decide

/-- Claim C4 (amended): every error returned by `From` is a positioned
`ISO8601DurationError` `{kind, column}`, except `DesignatorNumberTooLarge`,
which is propagated as the bare sentinel error without a column. -/
theorem errors_positioned_except_overflow (s : List Char) (e : GoError)
    (h : (From s).2 = some e) :
    (∃ k col, e = .positioned k col) ∨ e = .bare .DesignatorNumberTooLarge := by
  rw [From] at h
  split at h
  · simp [wrapErr] at h; exact Or.inl ⟨_, _, h.symm⟩
  · exact fromLoop_error_shape s .start {} [] 0 e h

/-- Witness for the amended C4 at the input `"Z"`. -/
theorem errors_positioned_except_overflow_witness :
    (From "Z".data).2 = some (.positioned .MissingPDesignatorAtStart 1)
      ∧ ((∃ k col, GoError.positioned .MissingPDesignatorAtStart 1 = .positioned k col)
          ∨ GoError.positioned .MissingPDesignatorAtStart 1 = .bare .DesignatorNumberTooLarge) :=
  ⟨by decide, errors_positioned_except_overflow "Z".data _ (by decide)⟩

theorem fromLoop_trunc : ∀ (xs : List Char) (st : St) (d : Duration) (buf : List Char) (n : Nat),
    fromLoop st d buf (n % 256) xs
      = ((fromLoopNatCol st d buf n xs).1, (fromLoopNatCol st d buf n xs).2.map errTrunc) := by
  intro xs
  induction xs with
  | nil =>
    intro st d buf n
    cases st <;> simp [fromLoop, fromLoopNatCol, errTrunc, wrapErr]
  | cons c rest ih =>
    intro st d buf n
    have hcol : ((n % 256) + 1) % 256 = (n + 1) % 256 := by omega
    by_cases h128 : 128 ≤ c.toNat
    · cases st <;> simp [fromLoop, fromLoopNatCol, if_pos h128, errTrunc, wrapErr]
    · cases st
      · simp only [fromLoop, fromLoopNatCol, if_neg h128]
        split_ifs <;> first | (rw [hcol]; exact ih _ _ _ _) | (simp [errTrunc, wrapErr])
      · simp only [fromLoop, fromLoopNatCol, if_neg h128]
        split_ifs <;> first | (rw [hcol]; exact ih _ _ _ _) | (simp [errTrunc, wrapErr])
      · cases hnum : numBufferToNumber buf with
        | error e2 =>
          obtain rfl := numAccumGo_error _ _ _ hnum
          simp only [fromLoop, fromLoopNatCol, if_neg h128, hnum]
          split_ifs <;>
            first | (rw [hcol]; exact ih _ _ _ _) | (simp [errTrunc, wrapErr])
        | ok num =>
          simp only [fromLoop, fromLoopNatCol, if_neg h128, hnum]
          split_ifs <;>
            first | (rw [hcol]; exact ih _ _ _ _) | (simp [errTrunc, wrapErr])
      · simp only [fromLoop, fromLoopNatCol, if_neg h128]
        split_ifs <;> first | (rw [hcol]; exact ih _ _ _ _) | (simp [errTrunc, wrapErr])
      · simp only [fromLoop, fromLoopNatCol, if_neg h128]
        split_ifs <;> first | (rw [hcol]; exact ih _ _ _ _) | (simp [errTrunc, wrapErr])
      · cases hnum : numBufferToNumber buf with
        | error e2 =>
          obtain rfl := numAccumGo_error _ _ _ hnum
          simp only [fromLoop, fromLoopNatCol, if_neg h128, hnum]
          split_ifs <;>
            first | (rw [hcol]; exact ih _ _ _ _) | (simp [errTrunc, wrapErr])
        | ok num =>
          simp only [fromLoop, fromLoopNatCol, if_neg h128, hnum]
          split_ifs <;>
            first | (rw [hcol]; exact ih _ _ _ _) | (simp [errTrunc, wrapErr])
      · simp only [fromLoop, fromLoopNatCol, if_neg h128]
        split_ifs <;> first | (rw [hcol]; exact ih _ _ _ _) | (simp [errTrunc, wrapErr])

/-- Claim C10: the column field of every positioned error is an unsigned 8-bit
counter — the parser agrees with a ghost variant tracking the true unbounded
1-based position except that every reported column is reduced modulo 256; on a
run of 256 signs followed by an invalid character (true position 257), the
reported column has wrapped to 1. -/
theorem column_is_uint8_wraps :
    (∀ s, From s = ((FromNatCol s).1, (FromNatCol s).2.map errTrunc))
      ∧ From (List.replicate 256 '-' ++ ['Z'])
          = ({ hasNegativeSign := true }, some (.positioned .MissingPDesignatorAtStart 1))
      ∧ FromNatCol (List.replicate 256 '-' ++ ['Z'])
          = ({ hasNegativeSign := true }, some (.positioned .MissingPDesignatorAtStart 257)) := by
  refine ⟨?_, by decide, by decide⟩
  intro s
  by_cases hs : s = []
  · subst hs; simp [From, FromNatCol, errTrunc, wrapErr]
  · rw [From, if_neg hs, FromNatCol, if_neg hs]
    exact fromLoop_trunc s .start {} [] 0
